import Mathlib

/-!
Shallow embedding of the Lexi Jagriti API service layer (src/services.py,
src/utils.py, src/models.py, src/config.py, src/app/api/routers/cases.py),
together with theorems settling the specification claims.

Conventions:
* Python strings are modelled as Lean `String`s; where character-level work
  is needed we work on `s.data : List Char`.
* Python bytes are modelled as `List Nat` with each element < 256.
* Python dicts used as key/value stores are modelled as association lists
  with cons-on-insert, which is observationally the same as dict assignment
  for `get`/`[]=` (the only operations the code performs).
* Dates are modelled like Python `datetime.date`: a year/month/day record,
  with `timedelta` arithmetic going through proleptic-Gregorian ordinals.
-/

namespace Jagriti

/-! ### Python whitespace and text helpers (src/utils.py) -/

/-- The characters matched by Python's `str.strip()` default set and by the
regex class `\s` on ASCII text: space, tab, newline, carriage return,
vertical tab and form feed. -/
def isPySpace (c : Char) : Bool :=
  c = ' ' || c = '\t' || c = '\n' || c = '\r' || c = Char.ofNat 11 || c = Char.ofNat 12

/-- Remove trailing whitespace characters. -/
def dropTrailWs (l : List Char) : List Char :=
  (l.reverse.dropWhile isPySpace).reverse

/-- Python `str.strip()` on the character list: drop leading and trailing
whitespace. -/
def pyStrip (l : List Char) : List Char :=
  dropTrailWs (l.dropWhile isPySpace)

/-- `re.sub(r'\s+', ' ', ·)`: replace each maximal run of whitespace
characters by a single space.  The Boolean state records whether the
previous character was part of a whitespace run already rewritten. -/
def collapseWs : Bool → List Char → List Char
  | _, [] => []
  | prevWs, c :: cs =>
    if isPySpace c then
      if prevWs then collapseWs true cs
      else ' ' :: collapseWs true cs
    else c :: collapseWs false cs

/-- `utils.clean_text`: empty/falsy input maps to `""`; otherwise strip and
collapse internal whitespace runs to single spaces. -/
def cleanText (s : String) : String :=
  if s = "" then ""
  else String.mk (collapseWs false (pyStrip s.data))

/-- `utils.normalize_state_name`: uppercase then strip. -/
def normalizeStateName (s : String) : String :=
  String.mk (pyStrip (s.data.map Char.toUpper))

/-- `utils.normalize_commission_name`: strip only. -/
def normalizeCommissionName (s : String) : String :=
  String.mk (pyStrip s.data)

/-- `utils.validate_search_value`: false when the value is empty or its
stripped length is below 2, true otherwise. -/
def validateSearchValue (s : String) : Bool :=
  if s = "" || (pyStrip s.data).length < 2 then false else true

/-! ### Dates (`datetime.date` with `timedelta` arithmetic, src/utils.py) -/

/-- A calendar date, as stored by Python's `datetime.date`. -/
structure PyDate where
  year : Int
  month : Nat
  day : Nat
deriving DecidableEq, Repr

/-- Proleptic-Gregorian ordinal of a civil date, with day 0 = 1970-01-01
(the standard days-from-civil algorithm, with floor division). -/
def daysFromCivil (d : PyDate) : Int :=
  let y : Int := if d.month ≤ 2 then d.year - 1 else d.year
  let era : Int := Int.fdiv y 400
  let yoe : Int := y - era * 400
  let mp : Int := if d.month ≤ 2 then (d.month : Int) + 9 else (d.month : Int) - 3
  let doy : Int := Int.fdiv (153 * mp + 2) 5 + (d.day : Int) - 1
  let doe : Int := yoe * 365 + Int.fdiv yoe 4 - Int.fdiv yoe 100 + doy
  era * 146097 + doe - 719468

/-- Inverse of `daysFromCivil` (the standard civil-from-days algorithm). -/
def civilFromDays (z0 : Int) : PyDate :=
  let z : Int := z0 + 719468
  let era : Int := Int.fdiv z 146097
  let doe : Int := z - era * 146097
  let yoe : Int := Int.fdiv (doe - Int.fdiv doe 1460 + Int.fdiv doe 36524 - Int.fdiv doe 146096) 365
  let y : Int := yoe + era * 400
  let doy : Int := doe - (365 * yoe + Int.fdiv yoe 4 - Int.fdiv yoe 100)
  let mp : Int := Int.fdiv (5 * doy + 2) 153
  let d : Int := doy - Int.fdiv (153 * mp + 2) 5 + 1
  let m : Int := if mp < 10 then mp + 3 else mp - 9
  { year := if m ≤ 2 then y + 1 else y, month := m.toNat, day := d.toNat }

/-- `date - timedelta(days=n)`. -/
def subDays (d : PyDate) (n : Int) : PyDate :=
  civilFromDays (daysFromCivil d - n)

/-- `utils.get_default_date_range`, with the host clock's current date made
an explicit parameter: `(today - 30 days, today)`. -/
def getDefaultDateRange (today : PyDate) : PyDate × PyDate :=
  (subDays today 30, today)

/-- Decimal digits of `n`, zero-padded on the left to width `w`. -/
def padNat (w : Nat) (n : Nat) : List Char :=
  let ds := Nat.toDigits 10 n
  List.replicate (w - ds.length) '0' ++ ds

/-- `utils.format_date_for_jagriti`: `None` renders as `""`, a date as
`YYYY-MM-DD` (strftime `%Y-%m-%d`). -/
def formatDateForJagriti : Option PyDate → String
  | none => ""
  | some d => String.mk (padNat 4 d.year.toNat ++ '-' :: padNat 2 d.month ++ '-' :: padNat 2 d.day)

/-! ### Python `int(str)` (used by `search_cases` on `commission_id`) -/

def isDigitChar (c : Char) : Bool := '0' ≤ c && c ≤ '9'

/-- Parse the digit part of a Python decimal integer literal after the first
digit has been consumed into `acc`: digits, with single underscores allowed
only between digits. -/
def pyDigitsAux (acc : Nat) : List Char → Option Nat
  | [] => some acc
  | c :: rest =>
    if isDigitChar c then pyDigitsAux (acc * 10 + (c.toNat - 48)) rest
    else if c = '_' then
      match rest with
      | [] => none
      | d :: rest2 =>
        if isDigitChar d then pyDigitsAux (acc * 10 + (d.toNat - 48)) rest2 else none
    else none

/-- Python `int(s)` for base-10 strings: strips whitespace, allows one sign,
then a digit sequence with single internal underscores; anything else raises
`ValueError` (modelled as `none`). -/
def pyInt (s : String) : Option Int :=
  match pyStrip s.data with
  | [] => none
  | c :: rest =>
    if c = '+' then
      match rest with
      | [] => none
      | d :: r2 => if isDigitChar d then (pyDigitsAux (d.toNat - 48) r2).map Int.ofNat else none
    else if c = '-' then
      match rest with
      | [] => none
      | d :: r2 =>
        if isDigitChar d then (pyDigitsAux (d.toNat - 48) r2).map (fun n => -(n : Int)) else none
    else if isDigitChar c then (pyDigitsAux (c.toNat - 48) rest).map Int.ofNat
    else none

/-! ### Base64 decoding (`base64.b64decode(·, validate=False)`) -/

/-- Value of a standard base64 alphabet character. -/
def b64Val (c : Char) : Option Nat :=
  if 'A' ≤ c && c ≤ 'Z' then some (c.toNat - 65)
  else if 'a' ≤ c && c ≤ 'z' then some (c.toNat - 97 + 26)
  else if '0' ≤ c && c ≤ '9' then some (c.toNat - 48 + 52)
  else if c = '+' then some 62
  else if c = '/' then some 63
  else none

/-- Bytes emitted when padding terminates a partial quad of 2 or 3 six-bit
values. -/
def b64EmitPartial : List Nat → List Nat
  | [v1, v2] => [v1 * 4 + v2 / 16]
  | [v1, v2, v3] => [v1 * 4 + v2 / 16, (v2 % 16) * 16 + v3 / 4]
  | _ => []

/-- Bytes of one complete quad of four six-bit values. -/
def b64EmitQuad : List Nat → List Nat
  | [v1, v2, v3, v4] =>
    [v1 * 4 + v2 / 16, (v2 % 16) * 16 + v3 / 4, (v3 % 4) * 64 + v4]
  | _ => []

/-- CPython's `binascii.a2b_base64` in non-strict mode: characters outside
the alphabet are skipped; a data character resets the pad count; `'='` is
counted only when the current quad already has at least two data characters
and terminates decoding once the quad is padded out to four; input left in
a partial quad at the end of the string is an error (`none`). -/
def a2bBase64 (quad : List Nat) (pads : Nat) : List Char → Option (List Nat)
  | [] => if quad.isEmpty then some [] else none
  | c :: cs =>
    if c = '=' then
      if 2 ≤ quad.length then
        if 4 ≤ quad.length + (pads + 1) then some (b64EmitPartial quad)
        else a2bBase64 quad (pads + 1) cs
      else a2bBase64 quad pads cs
    else
      match b64Val c with
      | none => a2bBase64 quad pads cs
      | some v =>
        let q := quad ++ [v]
        if q.length = 4 then (a2bBase64 [] 0 cs).map (fun tl => b64EmitQuad q ++ tl)
        else a2bBase64 q 0 cs

/-- `base64.b64decode(s, validate=False)`; `binascii.Error` is modelled as
`none`. -/
def pyB64Decode (s : List Char) : Option (List Nat) :=
  a2bBase64 [] 0 s

/-! ### SHA-256 (`hashlib.sha256(...).hexdigest()`) -/

def M32 : Nat := 4294967296

def rotr32 (x n : Nat) : Nat :=
  ((x >>> n) ||| (x <<< (32 - n))) % M32

def ch32 (x y z : Nat) : Nat := (x &&& y) ^^^ ((x ^^^ 4294967295) &&& z)

def maj32 (x y z : Nat) : Nat := (x &&& y) ^^^ (x &&& z) ^^^ (y &&& z)

def bSig0 (x : Nat) : Nat := rotr32 x 2 ^^^ rotr32 x 13 ^^^ rotr32 x 22

def bSig1 (x : Nat) : Nat := rotr32 x 6 ^^^ rotr32 x 11 ^^^ rotr32 x 25

def sSig0 (x : Nat) : Nat := rotr32 x 7 ^^^ rotr32 x 18 ^^^ (x >>> 3)

def sSig1 (x : Nat) : Nat := rotr32 x 17 ^^^ rotr32 x 19 ^^^ (x >>> 10)

/-- The 64 SHA-256 round constants, in decimal. -/
def K256 : List Nat :=
  [1116352408, 1899447441, 3049323471, 3921009573,
   961987163, 1508970993, 2453635748, 2870763221,
   3624381080, 310598401, 607225278, 1426881987,
   1925078388, 2162078206, 2614888103, 3248222580,
   3835390401, 4022224774, 264347078, 604807628,
   770255983, 1249150122, 1555081692, 1996064986,
   2554220882, 2821834349, 2952996808, 3210313671,
   3336571891, 3584528711, 113926993, 338241895,
   666307205, 773529912, 1294757372, 1396182291,
   1695183700, 1986661051, 2177026350, 2456956037,
   2730485921, 2820302411, 3259730800, 3345764771,
   3516065817, 3600352804, 4094571909, 275423344,
   430227734, 506948616, 659060556, 883997877,
   958139571, 1322822218, 1537002063, 1747873779,
   1955562222, 2024104815, 2227730452, 2361852424,
   2428436474, 2756734187, 3204031479, 3329325298]

/-- The eight 32-bit working variables of the SHA-256 compression state. -/
structure Hash8 where
  a : Nat
  b : Nat
  c : Nat
  d : Nat
  e : Nat
  f : Nat
  g : Nat
  h : Nat
deriving DecidableEq, Repr

/-- The eight SHA-256 initial hash values, in decimal. -/
def sha256Init : Hash8 :=
  ⟨1779033703, 3144134277, 1013904242, 2773480762,
   1359893119, 2600822924, 528734635, 1541459225⟩

/-- SHA-256 padding: append `0x80`, zeros to 56 mod 64, then the original
bit length as 8 big-endian bytes. -/
def sha256Pad (msg : List Nat) : List Nat :=
  let padLen := (64 + 55 - msg.length % 64) % 64
  let bits := msg.length * 8
  msg ++ 0x80 :: List.replicate padLen 0 ++
    [bits >>> 56 % 256, bits >>> 48 % 256, bits >>> 40 % 256, bits >>> 32 % 256,
     bits >>> 24 % 256, bits >>> 16 % 256, bits >>> 8 % 256, bits % 256]

/-- Big-endian 4-byte groups to 32-bit words. -/
def bytesToWords : List Nat → List Nat
  | b1 :: b2 :: b3 :: b4 :: rest =>
    (b1 * 16777216 + b2 * 65536 + b3 * 256 + b4) :: bytesToWords rest
  | _ => []

/-- Extend the 16 block words to 64 schedule words; `rws` holds the words
produced so far, most recent first. -/
def extendWords : Nat → List Nat → List Nat
  | 0, rws => rws
  | n + 1, rws =>
    let w := (sSig1 (rws.getD 1 0) + rws.getD 6 0 + sSig0 (rws.getD 14 0) + rws.getD 15 0) % M32
    extendWords n (w :: rws)

def sha256Schedule (block : List Nat) : List Nat :=
  (extendWords 48 (bytesToWords block).reverse).reverse

/-- One round of the compression function; `kw` is `K[i] + W[i]`. -/
def sha256Round (s : Hash8) (kw : Nat) : Hash8 :=
  let t1 := (s.h + bSig1 s.e + ch32 s.e s.f s.g + kw) % M32
  let t2 := (bSig0 s.a + maj32 s.a s.b s.c) % M32
  ⟨(t1 + t2) % M32, s.a, s.b, s.c, (s.d + t1) % M32, s.e, s.f, s.g⟩

def sha256Block (s : Hash8) (block : List Nat) : Hash8 :=
  let ws := sha256Schedule block
  let t := (K256.zip ws).foldl (fun st p => sha256Round st ((p.1 + p.2) % M32)) s
  ⟨(s.a + t.a) % M32, (s.b + t.b) % M32, (s.c + t.c) % M32, (s.d + t.d) % M32,
   (s.e + t.e) % M32, (s.f + t.f) % M32, (s.g + t.g) % M32, (s.h + t.h) % M32⟩

/-- Split into 64-byte blocks (fuel-driven; fuel ≥ length suffices). -/
def chunks64 : Nat → List Nat → List (List Nat)
  | 0, _ => []
  | _, [] => []
  | fuel + 1, l => l.take 64 :: chunks64 fuel (l.drop 64)

def sha256Digest (msg : List Nat) : Hash8 :=
  let padded := sha256Pad msg
  (chunks64 padded.length padded).foldl sha256Block sha256Init

/-- Lowercase hex digit. -/
def hexDigit (n : Nat) : Char :=
  if n < 10 then Char.ofNat (48 + n) else Char.ofNat (87 + n)

/-- The 8 nibbles of a 32-bit word, most significant first (shifted; the
low 4 bits of each entry are the nibble). -/
def wordNibbles (w : Nat) : List Nat :=
  [w >>> 28, w >>> 24, w >>> 20, w >>> 16, w >>> 12, w >>> 8, w >>> 4, w]

/-- `hashlib.sha256(bytes).hexdigest()` as a character list: the 64
lowercase hex digits of the 8 digest words. -/
def sha256HexChars (msg : List Nat) : List Char :=
  let s := sha256Digest msg
  (wordNibbles s.a ++ wordNibbles s.b ++ wordNibbles s.c ++ wordNibbles s.d ++
   wordNibbles s.e ++ wordNibbles s.f ++ wordNibbles s.g ++ wordNibbles s.h).map
    (fun x => hexDigit (x % 16))

/-! ### Data model (src/models.py, src/config.py) -/

/-- `models.SearchType`. -/
inductive SearchType where
  | caseNumber
  | complainant
  | respondent
  | complainantAdvocate
  | respondentAdvocate
  | industryType
  | judge
deriving DecidableEq, Repr

/-- The `search_type_mapping` dict in `JagritiService.search_cases`. -/
def searchTypeCode : SearchType → Nat
  | .caseNumber => 1
  | .complainant => 2
  | .respondent => 3
  | .complainantAdvocate => 4
  | .respondentAdvocate => 5
  | .industryType => 6
  | .judge => 7

/-- `models.StateResponse`. -/
structure StateResponse where
  state_id : String
  state_name : String
deriving DecidableEq, Repr

/-- `models.CommissionResponse`. -/
structure CommissionResponse where
  commission_id : String
  commission_name : String
  state_id : String
deriving DecidableEq, Repr

/-- `models.CaseResponse`. -/
structure CaseResponse where
  case_number : String
  case_stage : String
  filing_date : String
  complainant : String
  complainant_advocate : String
  respondent : String
  respondent_advocate : String
  document_link : String
deriving DecidableEq, Repr

/-- `models.JagritiSearchPayload`. -/
structure JagritiSearchPayload where
  commissionId : Int
  dateRequestType : Nat := 1
  fromDate : String
  toDate : String
  judgeId : String := ""
  orderType : Nat := 1
  serchType : Nat
  serchTypeValue : String
deriving DecidableEq, Repr

/-- `models.CaseSearchRequest` after pydantic validation: the date fields
are `Optional[date]`. -/
structure CaseSearchRequest where
  state_id : String
  commission_id : String
  search_value : String
  from_date : Option PyDate
  to_date : Option PyDate
deriving DecidableEq, Repr

/-- A request body as sent by the caller, before pydantic fills defaults:
`none` means the field is absent from the JSON body, `some none` an explicit
`null`. -/
structure CaseSearchBody where
  state_id : String
  commission_id : String
  search_value : String
  from_date : Option (Option PyDate)
  to_date : Option (Option PyDate)
deriving DecidableEq, Repr

/-- Pydantic default filling for `CaseSearchRequest`: an absent `from_date`
receives the declared field default `date(2025, 1, 1)`, an absent `to_date`
receives its declared default `None`. -/
def fillRequestDefaults (b : CaseSearchBody) : CaseSearchRequest :=
  { state_id := b.state_id
    commission_id := b.commission_id
    search_value := b.search_value
    from_date := b.from_date.getD (some ⟨2025, 1, 1⟩)
    to_date := b.to_date.getD none }

/-- The parts of `config.Config` the service layer reads. -/
structure Config where
  host : String
  port : Nat
deriving DecidableEq, Repr

/-! ### Upstream response shapes (JSON consumed by `_parse_api_response`) -/

/-- One raw case entry from the upstream search response; `none` models an
absent key or JSON `null` (`dict.get` yields `None` for both). -/
structure RawCase where
  orderDocumentPath : Option String := none
  documentBase64 : Option String := none
  judgmentOrderDocumentBase64 : Option String := none
  caseNumber : Option String := none
  caseStageName : Option String := none
  caseFilingDate : Option String := none
  complainantName : Option String := none
  complainantAdvocateName : Option String := none
  respondentName : Option String := none
  respondentAdvocateName : Option String := none
deriving DecidableEq, Repr

/-- The `data` member of the upstream response: a dict holding a `cases`
list, a bare list, or some other JSON shape. -/
inductive UpstreamData where
  | dictData (cases : List RawCase)
  | listData (cases : List RawCase)
  | otherData
deriving DecidableEq, Repr

/-- The upstream search response body; `status` is the top-level JSON
status field (absent modelled as `none`). -/
structure UpstreamResponse where
  status : Option Int := none
  data : UpstreamData := .otherData
deriving DecidableEq, Repr

/-- An entry of the `processed_cases` list built by `_parse_api_response`. -/
structure ProcessedCase where
  case_number : String
  case_stage : String
  filing_date : String
  complainant : String
  complainant_advocate : String
  respondent : String
  respondent_advocate : String
  document_link : String
deriving DecidableEq, Repr

/-- Result dict of `_parse_api_response` / `_make_jagriti_request`:
`status` is the string `"success"` or `"error"`. -/
structure ApiResult where
  status : String
  cases : List ProcessedCase
deriving DecidableEq, Repr

/-- `self._document_store`: a dict from document id to bytes, modelled as
an association list where insertion conses (shadowing an older binding, as
dict assignment overwrites). -/
abbrev DocStore := List (String × List Nat)

def storeInsert (store : DocStore) (k : String) (v : List Nat) : DocStore :=
  (k, v) :: store

/-- `JagritiService.get_document_bytes`: `dict.get` on the store. -/
def getDocumentBytes (store : DocStore) (document_id : String) : Option (List Nat) :=
  store.lookup document_id

/-! ### Service operations (src/services.py) -/

/-- The `link_host` rewrite in `_parse_api_response`: `"localhost"` when the
configured bind host is `"0.0.0.0"` or `"127.0.0.1"`. -/
def linkHost (cfg : Config) : String :=
  if cfg.host = "0.0.0.0" || cfg.host = "127.0.0.1" then "localhost" else cfg.host

/-- The content-addressed id used by the document store: the first 32 hex
characters of the SHA-256 hex digest of the bytes
(`hashlib.sha256(b).hexdigest()[:32]`). -/
def documentId (bs : List Nat) : String :=
  String.mk ((sha256HexChars bs).take 32)

/-- `Nat.repr` of the port, as Python interpolates `Config.PORT`. -/
def documentLink (cfg : Config) (id : String) : String :=
  "http://" ++ linkHost cfg ++ ":" ++ Nat.repr cfg.port ++ "/documents/" ++ id

/-- `base64_doc = case.get("documentBase64") or case.get("judgmentOrderDocumentBase64")`
followed by the `if base64_doc:` truthiness test: the first non-empty,
non-`None` of the two fields, else `""`. -/
def effBase64 (c : RawCase) : String :=
  let a := c.documentBase64.getD ""
  if a ≠ "" then a else c.judgmentOrderDocumentBase64.getD ""

/-- `base64_doc.split(",")`: split on commas, keeping empty parts. -/
def splitOnComma : List Char → List (List Char)
  | [] => [[]]
  | c :: cs =>
    match splitOnComma cs with
    | [] => [[c]]
    | t :: ts => if c = ',' then [] :: t :: ts else (c :: t) :: ts

/-- `base64_doc.split(",")[-1].strip()`. -/
def normalizeB64Field (s : String) : List Char :=
  pyStrip ((splitOnComma s.data).getLastD [])

/-- The document-recovery block of `_parse_api_response` for one raw case:
returns the `document_link` string and the updated document store.  A
direct `orderDocumentPath` wins; otherwise a base64 field is decoded, and a
successful non-empty decode is stored under its content-addressed id; any
decode failure or empty payload leaves the link empty. -/
def recoverDocument (cfg : Config) (c : RawCase) (store : DocStore) :
    String × DocStore :=
  let path := c.orderDocumentPath.getD ""
  if path ≠ "" then (path, store)
  else
    let b64 := effBase64 c
    if b64 = "" then ("", store)
    else
      match pyB64Decode (normalizeB64Field b64) with
      | none => ("", store)
      | some [] => ("", store)
      | some bs =>
        let id := documentId bs
        (documentLink cfg id, storeInsert store id bs)

/-- The `processed_case` dict built by `_parse_api_response` for one raw
case (`case.get(k) or ""` on each text field). -/
def processCase (cfg : Config) (c : RawCase) (store : DocStore) :
    ProcessedCase × DocStore :=
  let rec' := recoverDocument cfg c store
  ({ case_number := c.caseNumber.getD ""
     case_stage := c.caseStageName.getD ""
     filing_date := c.caseFilingDate.getD ""
     complainant := c.complainantName.getD ""
     complainant_advocate := c.complainantAdvocateName.getD ""
     respondent := c.respondentName.getD ""
     respondent_advocate := c.respondentAdvocateName.getD ""
     document_link := rec'.1 }, rec'.2)

/-- The per-case loop of `_parse_api_response`. -/
def processCases (cfg : Config) (store : DocStore) :
    List RawCase → List ProcessedCase × DocStore
  | [] => ([], store)
  | c :: cs =>
    let p := processCase cfg c store
    let rest := processCases cfg p.2 cs
    (p.1 :: rest.1, rest.2)

/-- `JagritiService._parse_api_response`: reject a non-200 top-level status
or an unexpected `data` shape with an error result, otherwise process every
case entry. -/
def parseApiResponse (cfg : Config) (resp : UpstreamResponse) (store : DocStore) :
    ApiResult × DocStore :=
  if resp.status ≠ some 200 then ({ status := "error", cases := [] }, store)
  else
    match resp.data with
    | .otherData => ({ status := "error", cases := [] }, store)
    | .dictData cs =>
      let p := processCases cfg store cs
      ({ status := "success", cases := p.1 }, p.2)
    | .listData cs =>
      let p := processCases cfg store cs
      ({ status := "success", cases := p.1 }, p.2)

/-- `JagritiService._parse_cases`: an error result gives no cases; on
success each processed case becomes a `CaseResponse`, with `clean_text`
applied to the named text fields (`filing_date` and `document_link` are
copied as they are). -/
def parseCases (api : ApiResult) : List CaseResponse :=
  if api.status ≠ "success" then []
  else api.cases.map (fun c =>
    { case_number := cleanText c.case_number
      case_stage := cleanText c.case_stage
      filing_date := c.filing_date
      complainant := cleanText c.complainant
      complainant_advocate := cleanText c.complainant_advocate
      respondent := cleanText c.respondent
      respondent_advocate := cleanText c.respondent_advocate
      document_link := c.document_link })

/-- `JagritiService._make_jagriti_request`, with the network modelled as a
function from payload to `Option UpstreamResponse`; `none` stands for a
non-200 HTTP status or a transport exception, both of which the code turns
into an error result without touching the parser. -/
def makeJagritiRequest (upstream : JagritiSearchPayload → Option UpstreamResponse)
    (cfg : Config) (payload : JagritiSearchPayload) (store : DocStore) :
    ApiResult × DocStore :=
  match upstream payload with
  | none => ({ status := "error", cases := [] }, store)
  | some resp => parseApiResponse cfg resp store

/-- The date-defaulting block of `JagritiService.search_cases`: when either
bound is `None`, fetch the default range and fill each missing bound from
it; otherwise use both as given. -/
def resolveDates (req : CaseSearchRequest) (today : PyDate) : PyDate × PyDate :=
  if req.from_date = none || req.to_date = none then
    let range := getDefaultDateRange today
    (req.from_date.getD range.1, req.to_date.getD range.2)
  else
    (req.from_date.getD today, req.to_date.getD today)

/-- Exceptions that `search_cases` can raise before the upstream call:
`int(commission_id)` raises `ValueError` on a malformed literal. -/
inductive PyError where
  | valueError (msg : String)
deriving DecidableEq, Repr

/-- The payload `search_cases` builds for the upstream API. -/
def buildPayload (cid : Int) (fromD toD : PyDate) (ty : SearchType)
    (searchValue : String) : JagritiSearchPayload :=
  { commissionId := cid
    fromDate := formatDateForJagriti (some fromD)
    toDate := formatDateForJagriti (some toD)
    serchType := searchTypeCode ty
    serchTypeValue := searchValue }

/-- `JagritiService.search_cases`, returning the raised exception or the
case list with the updated document store, together with the number of
upstream search requests issued. -/
def searchCases (upstream : JagritiSearchPayload → Option UpstreamResponse)
    (cfg : Config) (store : DocStore) (req : CaseSearchRequest)
    (ty : SearchType) (today : PyDate) :
    Except PyError (List CaseResponse × DocStore) × Nat :=
  match pyInt req.commission_id with
  | none =>
    (.error (.valueError ("invalid literal for int() with base 10: " ++ req.commission_id)), 0)
  | some cid =>
    let dates := resolveDates req today
    let payload := buildPayload cid dates.1 dates.2 ty req.search_value
    let result := makeJagritiRequest upstream cfg payload store
    (.ok (parseCases result.1, result.2), 1)

/-! ### States cache (`JagritiService.get_states`) -/

/-- The mutable service state read and written by `get_states`: the states
cache plus an instrumentation counter of upstream fetches issued. -/
structure StatesState where
  statesCache : Option (List StateResponse)
  fetchCount : Nat
deriving DecidableEq, Repr

/-- `JagritiService.get_states`, with `_fetch_real_states` modelled as a
stubbed upstream giving the result of the nth fetch.  A fetch that raises
is caught and, like `_fetch_real_states`'s own handlers, yields `[]`; both
the empty and the exceptional outcome leave the cache unpopulated, so the
stub returns the (possibly empty) state list directly. -/
def getStates (upstream : Nat → List StateResponse) (s : StatesState) :
    List StateResponse × StatesState :=
  match s.statesCache with
  | some cached => (cached, s)
  | none =>
    let real := upstream s.fetchCount
    let s' : StatesState := { s with fetchCount := s.fetchCount + 1 }
    if real ≠ [] then (real, { s' with statesCache := some real })
    else ([], s')

/-! ### HTTP boundary for case search (src/app/api/routers/cases.py) -/

/-- Outcome of a request handler: a JSON list of cases with HTTP 200, or an
`HTTPException` with a status code and detail. -/
inductive HandlerOutcome where
  | ok (cases : List CaseResponse)
  | httpError (status : Nat) (detail : String)
deriving DecidableEq, Repr

/-- `search_by_case_number` (each of the seven `/cases/...` handlers is the
same function up to the `SearchType` constant): reject an invalid search
value with 400 before calling the service; map a `ValueError` from the
service to 400 and any other exception to 500.  The second component counts
upstream search requests issued. -/
def searchHandler (upstream : JagritiSearchPayload → Option UpstreamResponse)
    (cfg : Config) (store : DocStore) (req : CaseSearchRequest)
    (ty : SearchType) (today : PyDate) : HandlerOutcome × Nat :=
  if !validateSearchValue req.search_value then (.httpError 400 "Invalid search value", 0)
  else
    match searchCases upstream cfg store req ty today with
    | (.error (.valueError msg), n) => (.httpError 400 msg, n)
    | (.ok res, n) => (.ok res.1, n)

/-! ### Auxiliary predicates and shared example inputs -/

/-- Lowercase hexadecimal characters. -/
def isHexChar (c : Char) : Bool :=
  ('0' ≤ c && c ≤ '9') || ('a' ≤ c && c ≤ 'f')

/-- No two adjacent whitespace characters. -/
def noTwoWs : List Char → Bool
  | a :: b :: rest => !(isPySpace a && isPySpace b) && noTwoWs (b :: rest)
  | _ => true

/-- Every whitespace character is a plain space. -/
def allWsSpace (l : List Char) : Bool :=
  l.all (fun c => !isPySpace c || c = ' ')

/-- The document-store invariant: every stored entry's key is the
content-addressed id of the bytes stored under it. -/
def StoreOk (store : DocStore) : Prop :=
  ∀ p ∈ store, p.1 = documentId p.2

instance (store : DocStore) : Decidable (StoreOk store) :=
  List.decidableBAll _ store

/-- A sample server configuration (the defaults in `config.Config`). -/
def exCfg : Config := ⟨"0.0.0.0", 8000⟩

/-- A sample current date for the host clock. -/
def exToday : PyDate := ⟨2025, 10, 12⟩

/-- A raw case entry whose document is supplied only as base64. -/
def exB64Case : RawCase := { documentBase64 := some "data:application/pdf;base64,aGk=" }

/-- An upstream response with a non-success status. -/
def exErrResp : UpstreamResponse := { status := some 500, data := .dictData [] }

/-- A stubbed upstream returning no states on every fetch. -/
def exEmptyUpstream : Nat → List StateResponse := fun _ => []

/-- A stubbed upstream returning one state on every fetch. -/
def exOneStateUpstream : Nat → List StateResponse := fun _ => [⟨"11290000", "KARNATAKA"⟩]

/-- A raw case entry with whitespace-padded text fields. -/
def exPaddedCase : RawCase :=
  { caseFilingDate := some "  2025-01-01  ", complainantName := some "  Kumar   Lal " }

/-! ## Claim theorems -/

/-- C1, counterexample: a request with both dates absent does not use the
window `(today - 30d, today)` — pydantic fills the absent `from_date` with
the declared field default `date(2025, 1, 1)`, which `search_cases` then
uses unchanged, so for `today = 2025-10-12` the effective `from_date` is
`2025-01-01`, not `2025-09-12`. -/
theorem c1_both_absent_not_thirty_days :
    (resolveDates (fillRequestDefaults
        ⟨"11290000", "15290525", "KUMAR", none, none⟩) exToday).1 = ⟨2025, 1, 1⟩ ∧
    (getDefaultDateRange exToday).1 = ⟨2025, 9, 12⟩ ∧
    (resolveDates (fillRequestDefaults
        ⟨"11290000", "15290525", "KUMAR", none, none⟩) exToday).1 ≠
      (getDefaultDateRange exToday).1 := by
  refine ⟨by decide, by decide, by decide⟩

/-- C1, amended: the two bounds are resolved independently and
caller-supplied dates are used unchanged, but the defaults are: an absent
`from_date` becomes the model default `2025-01-01`, an explicitly null
`from_date` becomes `today - 30d`, and an absent or null `to_date` becomes
`today`; in particular a request with both dates absent uses the window
`(2025-01-01, today)`. -/
theorem c1_date_defaulting (b : CaseSearchBody) (today : PyDate) :
    resolveDates (fillRequestDefaults b) today =
      ((match b.from_date with
        | none => ⟨2025, 1, 1⟩
        | some none => subDays today 30
        | some (some d) => d),
       (match b.to_date with
        | none => today
        | some none => today
        | some (some d) => d)) := by
  rcases b with ⟨sid, cid, sv, f, t⟩
  rcases f with _ | _ | f <;> rcases t with _ | _ | t <;>
    simp [fillRequestDefaults, resolveDates, getDefaultDateRange]

/-- C4: when the upstream response body's top-level status is not 200, the
parse pipeline yields an error result with no cases and the search
operation returns an empty case list (no exception), leaving the document
store untouched. -/
theorem c4_non_success_status_empty (cfg : Config) (resp : UpstreamResponse)
    (store : DocStore) (h : resp.status ≠ some 200) :
    parseApiResponse cfg resp store = ({ status := "error", cases := [] }, store) ∧
    parseCases (parseApiResponse cfg resp store).1 = [] ∧
    ∀ (req : CaseSearchRequest) (ty : SearchType) (today : PyDate) (cid : Int),
      pyInt req.commission_id = some cid →
      searchCases (fun _ => some resp) cfg store req ty today =
        (.ok ([], store), 1) := by
  have hparse : parseApiResponse cfg resp store = ({ status := "error", cases := [] }, store) := by
    simp [parseApiResponse, h]
  refine ⟨hparse, by simp [hparse, parseCases], ?_⟩
  intro req ty today cid hcid
  simp [searchCases, hcid, makeJagritiRequest, hparse, parseCases]

/-- C4, witness: a concrete status-500 body with a well-formed request. -/
theorem c4_witness :
    exErrResp.status ≠ some 200 ∧
    pyInt "15290525" = some 15290525 ∧
    searchCases (fun _ => some exErrResp) exCfg []
        ⟨"11290000", "15290525", "KUMAR", none, none⟩ .complainant exToday =
      (.ok ([], []), 1) :=
  ⟨by decide, by decide,
    (c4_non_success_status_empty exCfg exErrResp [] (by decide)).2.2
      ⟨"11290000", "15290525", "KUMAR", none, none⟩ .complainant exToday
      15290525 (by decide)⟩

/-- C5, counterexample: when the stubbed upstream yields an empty state
list, the first `get_states` call does not populate the cache, and a second
call issues a second upstream fetch — more than one fetch for two calls. -/
theorem c5_two_fetches_on_empty :
    ¬ ((getStates exEmptyUpstream
        (getStates exEmptyUpstream ⟨none, 0⟩).2).2.fetchCount ≤ 1) := by
  decide

/-- C5, amended: provided the first call's upstream fetch returns a
non-empty state list, that call populates the cache and a second sequential
call is served from the cache without issuing another fetch, so the two
calls issue exactly one fetch in total. -/
theorem c5_second_call_cached (upstream : Nat → List StateResponse) (n : Nat)
    (h : upstream n ≠ []) :
    getStates upstream ⟨none, n⟩ =
      (upstream n, ⟨some (upstream n), n + 1⟩) ∧
    getStates upstream ⟨some (upstream n), n + 1⟩ =
      (upstream n, ⟨some (upstream n), n + 1⟩) := by
  constructor
  · simp [getStates, h]
  · simp [getStates]

/-- C5, witness: a stub upstream with one state, starting from an empty
cache. -/
theorem c5_witness :
    exOneStateUpstream 0 ≠ [] ∧
    getStates exOneStateUpstream ⟨none, 0⟩ =
      (exOneStateUpstream 0, ⟨some (exOneStateUpstream 0), 1⟩) ∧
    getStates exOneStateUpstream ⟨some (exOneStateUpstream 0), 1⟩ =
      (exOneStateUpstream 0, ⟨some (exOneStateUpstream 0), 1⟩) :=
  ⟨by decide,
    (c5_second_call_cached exOneStateUpstream 0 (by decide)).1,
    (c5_second_call_cached exOneStateUpstream 0 (by decide)).2⟩

/-- C10: a successful upstream fetch that yields an empty state list makes
`get_states` return `[]` without populating the cache, and a subsequent
call issues another upstream fetch. -/
theorem c10_empty_fetch_not_cached (upstream : Nat → List StateResponse) (n : Nat)
    (h : upstream n = []) :
    getStates upstream ⟨none, n⟩ = ([], ⟨none, n + 1⟩) ∧
    (getStates upstream (getStates upstream ⟨none, n⟩).2).2.fetchCount = n + 2 := by
  have h1 : getStates upstream ⟨none, n⟩ = ([], ⟨none, n + 1⟩) := by
    simp [getStates, h]
  refine ⟨h1, ?_⟩
  rw [h1]
  by_cases h2 : upstream (n + 1) = [] <;> simp [getStates, h2]

/-- C10, witness: the always-empty stub upstream. -/
theorem c10_witness :
    exEmptyUpstream 0 = [] ∧
    getStates exEmptyUpstream ⟨none, 0⟩ = ([], ⟨none, 1⟩) ∧
    (getStates exEmptyUpstream (getStates exEmptyUpstream ⟨none, 0⟩).2).2.fetchCount = 2 :=
  ⟨by decide,
    (c10_empty_fetch_not_cached exEmptyUpstream 0 (by decide)).1,
    (c10_empty_fetch_not_cached exEmptyUpstream 0 (by decide)).2⟩

/-- `validate_search_value` succeeds exactly when the stripped search value
has length at least 2. -/
theorem validateSearchValue_iff (s : String) :
    validateSearchValue s = true ↔ 2 ≤ (pyStrip s.data).length := by
  rw [validateSearchValue]
  by_cases he : s = ""
  · subst he
    simp
    decide
  · by_cases hl : (pyStrip s.data).length < 2
    · simp only [he, hl]
      simp
      omega
    · simp only [he, hl]
      simp
      omega

/-- C6: a search value whose trimmed length is below 2 (the empty string
included) fails validation, makes the endpoint respond 400, and leads to no
upstream call; a trimmed length of at least 2 passes validation. -/
theorem c6_search_value_validation
    (upstream : JagritiSearchPayload → Option UpstreamResponse)
    (cfg : Config) (store : DocStore) (req : CaseSearchRequest)
    (ty : SearchType) (today : PyDate) :
    (validateSearchValue req.search_value = true ↔
      2 ≤ (pyStrip req.search_value.data).length) ∧
    ((pyStrip req.search_value.data).length < 2 →
      searchHandler upstream cfg store req ty today =
        (.httpError 400 "Invalid search value", 0)) := by
  refine ⟨validateSearchValue_iff _, fun hlt => ?_⟩
  have hv : validateSearchValue req.search_value = false := by
    cases hb : validateSearchValue req.search_value
    · rfl
    · exact absurd ((validateSearchValue_iff _).mp hb) (by omega)
  simp [searchHandler, hv]

/-- C6, witness: the search value `" K "` strips to one character and is
rejected with 400 before any upstream call. -/
theorem c6_witness :
    (pyStrip (" K " : String).data).length < 2 ∧
    searchHandler (fun _ => some exErrResp) exCfg []
        ⟨"11290000", "15290525", " K ", none, none⟩ .caseNumber exToday =
      (.httpError 400 "Invalid search value", 0) :=
  ⟨by decide,
    (c6_search_value_validation (fun _ => some exErrResp) exCfg []
      ⟨"11290000", "15290525", " K ", none, none⟩ .caseNumber exToday).2 (by decide)⟩

/-- C8: when `commission_id` is not a valid decimal integer literal,
`search_cases` raises `ValueError` before any upstream call is issued, and
the HTTP boundary maps it to a 400 response (not a 500). -/
theorem c8_bad_commission_id
    (upstream : JagritiSearchPayload → Option UpstreamResponse)
    (cfg : Config) (store : DocStore) (req : CaseSearchRequest)
    (ty : SearchType) (today : PyDate)
    (hint : pyInt req.commission_id = none)
    (hval : validateSearchValue req.search_value = true) :
    searchCases upstream cfg store req ty today =
      (.error (.valueError
        ("invalid literal for int() with base 10: " ++ req.commission_id)), 0) ∧
    searchHandler upstream cfg store req ty today =
      (.httpError 400
        ("invalid literal for int() with base 10: " ++ req.commission_id), 0) := by
  have hs : searchCases upstream cfg store req ty today =
      (.error (.valueError
        ("invalid literal for int() with base 10: " ++ req.commission_id)), 0) := by
    simp [searchCases, hint]
  exact ⟨hs, by simp [searchHandler, hval, hs]⟩

/-- C8, witness: `commission_id = "abc"` raises, zero upstream calls, and
the handler responds 400. -/
theorem c8_witness :
    pyInt "abc" = none ∧
    validateSearchValue "KUMAR" = true ∧
    searchHandler (fun _ => some exErrResp) exCfg []
        ⟨"11290000", "abc", "KUMAR", none, none⟩ .caseNumber exToday =
      (.httpError 400 ("invalid literal for int() with base 10: " ++ "abc"), 0) :=
  ⟨by decide, by decide,
    (c8_bad_commission_id (fun _ => some exErrResp) exCfg []
      ⟨"11290000", "abc", "KUMAR", none, none⟩ .caseNumber exToday
      (by decide) (by decide)).2⟩

/-- Each processed case in the output list of the per-case loop is built by
`processCase` from the raw case at the same position (for some intermediate
document store). -/
theorem processCases_getElem? (cfg : Config) (cases : List RawCase) :
    ∀ (store : DocStore) (i : Nat) (c : RawCase), cases[i]? = some c →
    ∃ store', ((processCases cfg store cases).1)[i]? = some (processCase cfg c store').1 := by
  induction cases with
  | nil => intro store i c h; simp at h
  | cons hd tl ih =>
    intro store i c h
    cases i with
    | zero =>
      simp at h
      subst h
      exact ⟨store, by simp [processCases]⟩
    | succ i =>
      simp at h
      obtain ⟨store', hs⟩ := ih (processCase cfg hd store).2 i c h
      exact ⟨store', by simpa [processCases] using hs⟩

/-- C2, counterexample: the emitted `filing_date` is copied from the raw
entry without whitespace normalization, so a padded raw filing date
survives to the output even though `clean_text` would change it. -/
theorem c2_filing_date_not_normalized :
    (parseCases (parseApiResponse exCfg
        ⟨some 200, .dictData [{ caseFilingDate := some "  2025-01-01  " }]⟩ []).1).map
      (fun cr => cr.filing_date) = ["  2025-01-01  "] ∧
    cleanText "  2025-01-01  " = "2025-01-01" ∧
    ("  2025-01-01  " : String) ≠ "2025-01-01" :=
  ⟨by decide, by decide, by decide⟩

/-- C2, amended: for every raw upstream case entry, the emitted record's
`case_number`, `case_stage`, `complainant`, `complainant_advocate`,
`respondent` and `respondent_advocate` are the whitespace-normalized
(`clean_text`) raw values, but `filing_date` is the raw value copied
verbatim, with no whitespace normalization. -/
theorem c2_text_fields_normalized_except_filing_date
    (cfg : Config) (store : DocStore) (cases : List RawCase) (i : Nat)
    (c : RawCase) (h : cases[i]? = some c) :
    ∃ cr, (parseCases (parseApiResponse cfg
        ⟨some 200, .dictData cases⟩ store).1)[i]? = some cr ∧
      cr.case_number = cleanText (c.caseNumber.getD "") ∧
      cr.case_stage = cleanText (c.caseStageName.getD "") ∧
      cr.filing_date = c.caseFilingDate.getD "" ∧
      cr.complainant = cleanText (c.complainantName.getD "") ∧
      cr.complainant_advocate = cleanText (c.complainantAdvocateName.getD "") ∧
      cr.respondent = cleanText (c.respondentName.getD "") ∧
      cr.respondent_advocate = cleanText (c.respondentAdvocateName.getD "") := by
  obtain ⟨store', hs⟩ := processCases_getElem? cfg cases store i c h
  refine ⟨⟨cleanText (c.caseNumber.getD ""), cleanText (c.caseStageName.getD ""),
      c.caseFilingDate.getD "", cleanText (c.complainantName.getD ""),
      cleanText (c.complainantAdvocateName.getD ""), cleanText (c.respondentName.getD ""),
      cleanText (c.respondentAdvocateName.getD ""), (recoverDocument cfg c store').1⟩,
    ?_, rfl, rfl, rfl, rfl, rfl, rfl, rfl⟩
  simp [parseApiResponse, parseCases, hs]
  simp [processCase]

/-- C2, witness: a single raw entry with padded text fields. -/
theorem c2_witness :
    ([exPaddedCase])[0]? = some exPaddedCase ∧
    ∃ cr, (parseCases (parseApiResponse exCfg
        ⟨some 200, .dictData [exPaddedCase]⟩ []).1)[0]? = some cr ∧
      cr.case_number = cleanText (exPaddedCase.caseNumber.getD "") ∧
      cr.case_stage = cleanText (exPaddedCase.caseStageName.getD "") ∧
      cr.filing_date = exPaddedCase.caseFilingDate.getD "" ∧
      cr.complainant = cleanText (exPaddedCase.complainantName.getD "") ∧
      cr.complainant_advocate = cleanText (exPaddedCase.complainantAdvocateName.getD "") ∧
      cr.respondent = cleanText (exPaddedCase.respondentName.getD "") ∧
      cr.respondent_advocate = cleanText (exPaddedCase.respondentAdvocateName.getD "") :=
  ⟨by decide,
    c2_text_fields_normalized_except_filing_date exCfg [] [exPaddedCase] 0
      exPaddedCase (by decide)⟩

/-- `hexDigit` of a nibble is a lowercase hex character. -/
theorem hexDigit_lt16_isHex : ∀ m, m < 16 → isHexChar (hexDigit m) = true := by
  decide

/-- Every character of a SHA-256 hex digest is a lowercase hex character. -/
theorem sha256HexChars_isHex (bs : List Nat) :
    ∀ ch ∈ sha256HexChars bs, isHexChar ch = true := by
  intro ch hch
  simp only [sha256HexChars, List.mem_map] at hch
  obtain ⟨x, -, rfl⟩ := hch
  exact hexDigit_lt16_isHex _ (Nat.mod_lt _ (by norm_num))

/-- A SHA-256 hex digest has 64 characters. -/
theorem sha256HexChars_length (bs : List Nat) : (sha256HexChars bs).length = 64 := by
  simp [sha256HexChars, wordNibbles]

/-- The document id is 32 characters long. -/
theorem documentId_length (bs : List Nat) : (documentId bs).length = 32 := by
  show ((sha256HexChars bs).take 32).length = 32
  simp [sha256HexChars_length]

/-- The characters of the document id are lowercase hex characters. -/
theorem documentId_isHex (bs : List Nat) :
    ∀ ch ∈ (documentId bs).data, isHexChar ch = true := by
  intro ch hch
  exact sha256HexChars_isHex bs ch (List.take_subset 32 _ hch)

/-- Looking up a key just inserted into the document store returns the
inserted bytes. -/
theorem getDocumentBytes_insert (store : DocStore) (k : String) (v : List Nat) :
    getDocumentBytes (storeInsert store k v) k = some v := by
  simp [getDocumentBytes, storeInsert, List.lookup]

/-- C3: for a case entry whose document comes only as a base64 field, with
the normalized payload decoding to non-empty bytes `bs`, recovery stores
`bs` under the first 32 hex digest characters, returns the link
`http://<host>:<port>/documents/<id>` with `id` made of 32 hex characters,
and a subsequent retrieval with that id returns exactly `bs`. -/
theorem c3_document_recovery (cfg : Config) (c : RawCase) (store : DocStore)
    (bs : List Nat)
    (hpath : c.orderDocumentPath.getD "" = "")
    (hb64 : effBase64 c ≠ "")
    (hdec : pyB64Decode (normalizeB64Field (effBase64 c)) = some bs)
    (hne : bs ≠ []) :
    recoverDocument cfg c store =
      ("http://" ++ linkHost cfg ++ ":" ++ Nat.repr cfg.port ++ "/documents/" ++
        documentId bs, storeInsert store (documentId bs) bs) ∧
    (documentId bs).length = 32 ∧
    (∀ ch ∈ (documentId bs).data, isHexChar ch = true) ∧
    getDocumentBytes (storeInsert store (documentId bs) bs) (documentId bs) = some bs := by
  refine ⟨?_, documentId_length bs, documentId_isHex bs, getDocumentBytes_insert _ _ _⟩
  rcases bs with - | ⟨b, bs'⟩
  · exact absurd rfl hne
  · simp [recoverDocument, hpath, hb64, hdec, documentLink]

/-- C3, witness: a data-URI base64 payload decoding to the two bytes
`b"hi"`. -/
theorem c3_witness :
    exB64Case.orderDocumentPath.getD "" = "" ∧
    effBase64 exB64Case ≠ "" ∧
    pyB64Decode (normalizeB64Field (effBase64 exB64Case)) = some [104, 105] ∧
    ([104, 105] : List Nat) ≠ [] ∧
    (recoverDocument exCfg exB64Case [] =
      ("http://" ++ linkHost exCfg ++ ":" ++ Nat.repr exCfg.port ++ "/documents/" ++
        documentId [104, 105], storeInsert [] (documentId [104, 105]) [104, 105]) ∧
    (documentId [104, 105]).length = 32 ∧
    (∀ ch ∈ (documentId [104, 105]).data, isHexChar ch = true) ∧
    getDocumentBytes (storeInsert [] (documentId [104, 105]) [104, 105])
        (documentId [104, 105]) = some [104, 105]) :=
  ⟨by decide, by decide, by decide, by decide,
    c3_document_recovery exCfg exB64Case [] [104, 105]
      (by decide) (by decide) (by decide) (by decide)⟩

/-- `StoreOk` is stable under inserting a content-addressed entry. -/
theorem storeOk_insert (store : DocStore) (k : String) (v : List Nat)
    (h : StoreOk store) (hk : k = documentId v) : StoreOk (storeInsert store k v) := by
  intro p hp
  rcases List.mem_cons.mp hp with rfl | hp
  · exact hk
  · exact h p hp

/-- Document recovery preserves the store invariant. -/
theorem storeOk_recover (cfg : Config) (c : RawCase) (store : DocStore)
    (h : StoreOk store) : StoreOk (recoverDocument cfg c store).2 := by
  rw [recoverDocument]
  split
  · exact h
  · dsimp only
    split
    · exact h
    · split
      · exact h
      · exact h
      · exact storeOk_insert _ _ _ h rfl

/-- The per-case loop preserves the store invariant. -/
theorem storeOk_processCases (cfg : Config) (cases : List RawCase) :
    ∀ store : DocStore, StoreOk store → StoreOk (processCases cfg store cases).2 := by
  induction cases with
  | nil => intro store h; exact h
  | cons hd tl ih =>
    intro store h
    exact ih _ (storeOk_recover cfg hd store h)

/-- Parsing an upstream response preserves the store invariant. -/
theorem storeOk_parseApiResponse (cfg : Config) (resp : UpstreamResponse)
    (store : DocStore) (h : StoreOk store) :
    StoreOk (parseApiResponse cfg resp store).2 := by
  rw [parseApiResponse]
  split
  · exact h
  · split
    · exact h
    · exact storeOk_processCases cfg _ store h
    · exact storeOk_processCases cfg _ store h

/-- A successful lookup in a store satisfying the invariant returns bytes
whose content-addressed id is the key looked up. -/
theorem storeOk_lookup (store : DocStore) (h : StoreOk store) (id : String)
    (bs : List Nat) (hl : getDocumentBytes store id = some bs) :
    documentId bs = id := by
  induction store with
  | nil => simp [getDocumentBytes, List.lookup] at hl
  | cons p rest ih =>
    rcases p with ⟨k, v⟩
    by_cases he : id = k
    · subst he
      have hv : v = bs := by simpa [getDocumentBytes, List.lookup] using hl
      subst hv
      exact (h (id, v) (List.mem_cons_self _ _)).symm
    · have hne : (id == k) = false := by simp [he]
      simp only [getDocumentBytes, List.lookup, hne] at hl
      exact ih (fun p hp => h p (List.mem_cons_of_mem _ hp)) hl

/-- C9: the document store's invariant — each key is the first 32 hex
digest characters of the bytes stored under it — holds for the initial
empty store and is preserved by document recovery, by response parsing and
by the upstream request wrapper; consequently retrieved bytes hash back to
the id used to retrieve them. -/
theorem c9_store_invariant (cfg : Config) (c : RawCase) (store : DocStore)
    (h : StoreOk store) :
    StoreOk ([] : DocStore) ∧
    StoreOk (recoverDocument cfg c store).2 ∧
    (∀ resp : UpstreamResponse, StoreOk (parseApiResponse cfg resp store).2) ∧
    (∀ (upstream : JagritiSearchPayload → Option UpstreamResponse)
       (payload : JagritiSearchPayload),
       StoreOk (makeJagritiRequest upstream cfg payload store).2) ∧
    (∀ id bs, getDocumentBytes store id = some bs → documentId bs = id) := by
  refine ⟨fun p hp => absurd hp (List.not_mem_nil p),
    storeOk_recover cfg c store h,
    fun resp => storeOk_parseApiResponse cfg resp store h,
    fun upstream payload => ?_,
    fun id bs hl => storeOk_lookup store h id bs hl⟩
  rw [makeJagritiRequest]
  split
  · exact h
  · exact storeOk_parseApiResponse cfg _ store h

/-- C9, witness: the empty store with a base64-document case entry. -/
theorem c9_witness :
    StoreOk ([] : DocStore) ∧ StoreOk (recoverDocument exCfg exB64Case []).2 :=
  ⟨by decide, (c9_store_invariant exCfg exB64Case [] (by decide)).2.1⟩

/-- The head of `dropWhile isPySpace` is not whitespace. -/
theorem dropWhile_ws_head : ∀ (l : List Char) (c : Char) (rest : List Char),
    l.dropWhile isPySpace = c :: rest → isPySpace c = false := by
  intro l
  induction l with
  | nil => intro c rest h; simp at h
  | cons a as ih =>
    intro c rest h
    rw [List.dropWhile_cons] at h
    by_cases ha : isPySpace a = true
    · exact ih c rest (by rwa [if_pos ha] at h)
    · rw [if_neg ha] at h
      injection h with h1 _
      subst h1
      simpa using ha

/-- The stripped list is a prefix of the list with leading whitespace
dropped. -/
theorem pyStrip_prefix (l : List Char) :
    ∃ t, l.dropWhile isPySpace = pyStrip l ++ t := by
  refine ⟨((l.dropWhile isPySpace).reverse.takeWhile isPySpace).reverse, ?_⟩
  conv_lhs => rw [← List.reverse_reverse (l.dropWhile isPySpace),
    ← List.takeWhile_append_dropWhile (p := isPySpace)
      (l := (l.dropWhile isPySpace).reverse)]
  rw [List.reverse_append]
  rfl

/-- The head of a stripped list is not whitespace. -/
theorem pyStrip_head (l : List Char) (c : Char) (rest : List Char)
    (h : pyStrip l = c :: rest) : isPySpace c = false := by
  obtain ⟨t, ht⟩ := pyStrip_prefix l
  rw [h] at ht
  exact dropWhile_ws_head l c (rest ++ t) (by simpa using ht)

/-- The last character of a stripped list is not whitespace. -/
theorem pyStrip_getLast (l : List Char) (c : Char)
    (h : (pyStrip l).getLast? = some c) : isPySpace c = false := by
  rw [pyStrip, dropTrailWs, List.getLast?_reverse] at h
  rcases hd : (l.dropWhile isPySpace).reverse.dropWhile isPySpace with - | ⟨d, rest⟩
  · rw [hd] at h; simp at h
  · rw [hd] at h
    simp at h
    subst h
    exact dropWhile_ws_head _ _ _ hd

/-- Every whitespace character emitted by the collapse pass is a plain
space. -/
theorem collapse_allWsSpace : ∀ (b : Bool) (l : List Char),
    allWsSpace (collapseWs b l) = true := by
  intro b l
  induction l generalizing b with
  | nil => rfl
  | cons c cs ih =>
    rw [collapseWs]
    by_cases hc : isPySpace c = true
    · rw [if_pos hc]
      cases b
      · simpa [allWsSpace] using ih true
      · simpa [allWsSpace] using ih true
    · rw [if_neg hc]
      have := ih false
      simp [allWsSpace] at this ⊢
      exact ⟨Or.inl (by simpa using hc), this⟩

/-- The output of the collapse pass in state `true` never begins with
whitespace. -/
theorem collapse_true_head : ∀ (l : List Char) (c : Char) (rest : List Char),
    collapseWs true l = c :: rest → isPySpace c = false := by
  intro l
  induction l with
  | nil => intro c rest h; simp [collapseWs] at h
  | cons a as ih =>
    intro c rest h
    rw [collapseWs] at h
    by_cases ha : isPySpace a = true
    · rw [if_pos ha] at h
      simp only [if_pos rfl] at h
      exact ih c rest h
    · rw [if_neg ha] at h
      injection h with h1 _
      subst h1
      simpa using ha

/-- The collapse pass never emits two adjacent whitespace characters. -/
theorem collapse_noTwoWs : ∀ (b : Bool) (l : List Char),
    noTwoWs (collapseWs b l) = true := by
  intro b l
  induction l generalizing b with
  | nil => rfl
  | cons c cs ih =>
    rw [collapseWs]
    by_cases hc : isPySpace c = true
    · rw [if_pos hc]
      cases b
      · simp only [Bool.false_eq_true, if_false]
        rcases hX : collapseWs true cs with - | ⟨d, rest⟩
        · rfl
        · have hd := collapse_true_head cs d rest hX
          have hrest : noTwoWs (d :: rest) = true := hX ▸ ih true
          show (!(isPySpace ' ' && isPySpace d) && noTwoWs (d :: rest)) = true
          simp [hd, hrest]
      · simp only [if_pos rfl]
        exact ih true
    · rw [if_neg hc]
      rcases hX : collapseWs false cs with - | ⟨d, rest⟩
      · rfl
      · have hrest : noTwoWs (d :: rest) = true := hX ▸ ih false
        show (!(isPySpace c && isPySpace d) && noTwoWs (d :: rest)) = true
        simp [hc, hrest]

/-- `getLast?` ignores a cons onto a non-empty list. -/
theorem getLast?_cons_ne_nil {α : Type} {y : α} {X : List α} (h : X ≠ []) :
    (y :: X).getLast? = X.getLast? := by
  rcases X with - | ⟨x, xs⟩
  · exact absurd rfl h
  · exact List.getLast?_cons_cons

/-- If the input is non-empty and ends in a non-whitespace character, so
does the output of the collapse pass. -/
theorem collapse_getLast : ∀ (l : List Char),
    (∀ c, l.getLast? = some c → isPySpace c = false) → ∀ (b : Bool), l ≠ [] →
    collapseWs b l ≠ [] ∧
      (∀ c, (collapseWs b l).getLast? = some c → isPySpace c = false) := by
  intro l
  induction l with
  | nil => intro _ b h; exact absurd rfl h
  | cons a as ih =>
    intro hlast b _
    rcases as with - | ⟨a2, as'⟩
    · have ha : isPySpace a = false := hlast a rfl
      rw [collapseWs, if_neg (by simp [ha])]
      refine ⟨by simp, ?_⟩
      intro c hc
      simp [collapseWs] at hc
      subst hc
      exact ha
    · have hlast' : ∀ c, (a2 :: as').getLast? = some c → isPySpace c = false := by
        intro c hc
        exact hlast c (List.getLast?_cons_cons.trans hc)
      rw [collapseWs]
      by_cases ha : isPySpace a = true
      · rw [if_pos ha]
        cases b
        · simp only [Bool.false_eq_true, if_false]
          obtain ⟨hne, hl⟩ := ih hlast' true (by simp)
          refine ⟨by simp, ?_⟩
          intro c hc
          rw [getLast?_cons_ne_nil hne] at hc
          exact hl c hc
        · simp only [if_pos rfl]
          exact ih hlast' true (by simp)
      · rw [if_neg ha]
        obtain ⟨hne, hl⟩ := ih hlast' false (by simp)
        refine ⟨by simp, ?_⟩
        intro c hc
        rw [getLast?_cons_ne_nil hne] at hc
        exact hl c hc

/-- A list in which every whitespace character is a plain space and no two
whitespace characters are adjacent is a fixed point of the collapse pass
(in state `true` provided it does not begin with whitespace). -/
theorem collapse_fixed : ∀ l : List Char, noTwoWs l = true → allWsSpace l = true →
    collapseWs false l = l ∧
      ((∀ c rest, l = c :: rest → isPySpace c = false) → collapseWs true l = l) := by
  intro l
  induction l with
  | nil => intro _ _; exact ⟨rfl, fun _ => rfl⟩
  | cons c cs ih =>
    intro h2 hsp
    have hsp' : allWsSpace cs = true := by
      simp [allWsSpace] at hsp ⊢
      exact hsp.2
    have h2' : noTwoWs cs = true := by
      rcases cs with - | ⟨d, rest⟩
      · rfl
      · exact ((Bool.and_eq_true _ _).mp h2).2
    obtain ⟨ihf, iht⟩ := ih h2' hsp'
    by_cases hc : isPySpace c = true
    · have hcs : c = ' ' := by
        simp [allWsSpace, hc] at hsp
        exact hsp.1
      subst hcs
      constructor
      · have hhead : ∀ d rest, cs = d :: rest → isPySpace d = false := by
          intro d rest he
          subst he
          have := ((Bool.and_eq_true _ _).mp h2).1
          simpa [hc] using this
        rw [collapseWs, if_pos hc]
        simp only [Bool.false_eq_true, if_false]
        rw [iht hhead]
      · intro hhead
        exact absurd (hhead ' ' cs rfl) (by simp [hc])
    · have h1 : collapseWs false (c :: cs) = c :: collapseWs false cs := by
        rw [collapseWs, if_neg hc]
      constructor
      · rw [h1, ihf]
      · intro _
        rw [collapseWs, if_neg hc, ihf]

/-- A list that neither begins nor ends with whitespace is a fixed point of
`pyStrip`. -/
theorem strip_fixed (l : List Char)
    (hhead : ∀ c rest, l = c :: rest → isPySpace c = false)
    (hlast : ∀ c, l.getLast? = some c → isPySpace c = false) :
    pyStrip l = l := by
  have h1 : l.dropWhile isPySpace = l := by
    rcases l with - | ⟨c, rest⟩
    · rfl
    · rw [List.dropWhile_cons, if_neg (by simp [hhead c rest rfl])]
  rw [pyStrip, h1, dropTrailWs]
  have h2 : l.reverse.dropWhile isPySpace = l.reverse := by
    rcases hr : l.reverse with - | ⟨c, rest⟩
    · rfl
    · have hg : l.getLast? = some c := by
        rw [← List.head?_reverse, hr]
        rfl
      rw [List.dropWhile_cons, if_neg (by simp [hlast c hg])]
  rw [h2, List.reverse_reverse]

/-- C7: `clean_text` is idempotent — applying it twice gives the same
result as applying it once, for every input string. -/
theorem c7_cleanText_idempotent (s : String) :
    cleanText (cleanText s) = cleanText s := by
  by_cases hs : s = ""
  · subst hs; rfl
  · have hcs : cleanText s = String.mk (collapseWs false (pyStrip s.data)) := by
      rw [cleanText, if_neg hs]
    rcases ht : collapseWs false (pyStrip s.data) with - | ⟨c, rest⟩
    · rw [hcs, ht]
      rfl
    · rw [hcs, ht]
      rw [cleanText, if_neg (fun hemp => List.cons_ne_nil c rest (congrArg String.data hemp))]
      show String.mk (collapseWs false (pyStrip (c :: rest))) = String.mk (c :: rest)
      have hhead : ∀ c0 r0, (c :: rest) = c0 :: r0 → isPySpace c0 = false := by
        intro c0 r0 he
        injection he with he1 he2
        subst he1
        rcases hps : pyStrip s.data with - | ⟨d, r⟩
        · rw [hps] at ht; simp [collapseWs] at ht
        · have hd : isPySpace d = false := pyStrip_head _ _ _ hps
          rw [hps, collapseWs, if_neg (by simp [hd])] at ht
          injection ht with ht1 _
          subst ht1
          exact hd
      have hlastt : ∀ c0, (c :: rest).getLast? = some c0 → isPySpace c0 = false := by
        rcases hps : pyStrip s.data with - | ⟨d, r⟩
        · rw [hps] at ht; simp [collapseWs] at ht
        · have hl := collapse_getLast (d :: r)
            (fun c0 hc0 => pyStrip_getLast s.data c0 (by rw [hps]; exact hc0))
            false (by simp)
          rw [hps] at ht
          rw [ht] at hl
          exact hl.2
      have hfix1 : pyStrip (c :: rest) = c :: rest := strip_fixed _ hhead hlastt
      have hfix2 : collapseWs false (c :: rest) = c :: rest := by
        have hn := collapse_noTwoWs false (pyStrip s.data)
        have ha := collapse_allWsSpace false (pyStrip s.data)
        rw [ht] at hn ha
        exact (collapse_fixed _ hn ha).1
      rw [hfix1, hfix2]

end Jagriti
